import Mathlib

/-!
Shallow embedding of the eNMS job-scheduling and workflow subsystem
(`eNMS/controller/automation.py`, `eNMS/controller/base.py`,
`eNMS/models/events.py`) together with proofs about the behaviour of its
operations: payload canonicalization and diffing, workflow-edge naming,
task trigger resolution, scheduler registration, result retrieval,
workflow-node deletion, target resolution and workflow restarting.
-/

namespace ENMS

/-- Python values that flow through the controllers: strings, integers,
booleans, `None`, lists and (insertion-ordered) dicts.  This is the payload
universe handled by `BaseController.str_dict` and the result store. -/
inductive Value where
  | str (s : String)
  | nat (n : Nat)
  | bool (b : Bool)
  | none
  | list (xs : List Value)
  | dict (xs : List (String × Value))

/-- The indentation prefix `"\t" * depth` used by `str_dict`. -/
def tabs (depth : Nat) : String :=
  String.mk (List.replicate depth '\t')

mutual

/-- Embedding of `BaseController.str_dict` (`eNMS/controller/base.py`): canonicalizes a
payload into an indentation-based line rendering.  Lists render each element
as `tab ++ "- " ++ rendered ++ "\n"` after an initial newline, dicts render
each pair as `"\n" ++ tab ++ key ++ ": " ++ rendered`, and every scalar
renders as Python `str` of it. -/
def str_dict (v : Value) (depth : Nat) : String :=
  match v with
  | .list xs => "\n" ++ str_dict_list xs depth
  | .dict xs => str_dict_pairs xs depth
  | .str s => s
  | .nat n => Nat.repr n
  | .bool b => if b then "True" else "False"
  | .none => "None"

/-- The list loop of `str_dict`: one `{tab}- {rendered}\n` chunk per element. -/
def str_dict_list (xs : List Value) (depth : Nat) : String :=
  match xs with
  | [] => ""
  | x :: rest =>
      tabs depth ++ "- " ++ str_dict x (depth + 1) ++ "\n" ++ str_dict_list rest depth

/-- The dict loop of `str_dict`: one `\n{tab}{key}: {rendered}` chunk per pair. -/
def str_dict_pairs (xs : List (String × Value)) (depth : Nat) : String :=
  match xs with
  | [] => ""
  | (k, v) :: rest =>
      "\n" ++ tabs depth ++ k ++ ": " ++ str_dict v (depth + 1) ++ str_dict_pairs rest depth

end

/-- Helper for `splitlines`: walks the characters with the current
(reversed) line as accumulator; a final partial line is emitted only when
nonempty, matching Python, where a trailing newline adds no empty line. -/
def splitlinesAux : List Char → List Char → List String
  | [], acc => if acc.isEmpty then [] else [String.mk acc.reverse]
  | c :: cs, acc =>
      if c = '\n' then String.mk acc.reverse :: splitlinesAux cs []
      else splitlinesAux cs (c :: acc)

/-- Python `str.splitlines` restricted to the `"\n"` separator (the only line
break `str_dict` emits). -/
def splitlines (s : String) : List String :=
  splitlinesAux s.data []

example : splitlines "" = [] := by decide
example : splitlines "a\nb" = ["a", "b"] := by decide
example : splitlines "a\nb\n" = ["a", "b"] := by decide
example : splitlines "a\n\nb" = ["a", "", "b"] := by decide

example : str_dict (.dict [("a", .nat 2), ("b", .list [.str "x"])]) 0 =
    "\na: 2\nb: \n\t- x\n" := by
  simp [str_dict, str_dict_pairs, str_dict_list, tabs]
  rfl

/-- Length of the common run of equal elements of `a` at `i` and `b` at `j`,
capped at `lim` (the room left in the current search window). -/
def runLen (a b : List String) : Nat → Nat → Nat → Nat
  | _, _, 0 => 0
  | i, j, lim + 1 =>
      match a[i]?, b[j]? with
      | some x, some y => if x = y then runLen a b (i + 1) (j + 1) lim + 1 else 0
      | _, _ => 0

/-- One step of the longest-match search: replace the current best
`(i, j, size)` only on a strictly longer candidate, so that among maximal
matches the earliest `i` and then the earliest `j` wins, as in
`difflib.SequenceMatcher.find_longest_match`. -/
def bestStep (a b : List String) (ahi bhi : Nat) (best : Nat × Nat × Nat)
    (c : Nat × Nat) : Nat × Nat × Nat :=
  let k := runLen a b c.1 c.2 (min (ahi - c.1) (bhi - c.2))
  if best.2.2 < k then (c.1, c.2, k) else best

/-- Model of `difflib.SequenceMatcher.find_longest_match` on the window
`a[alo:ahi] / b[blo:bhi]` (no junk, as `compare_results` constructs the
matcher with `isjunk=None`): the longest matching block, ties resolved to
the earliest start in `a` and then in `b`. -/
def find_longest_match (a b : List String) (alo ahi blo bhi : Nat) :
    Nat × Nat × Nat :=
  let cands :=
    (List.range' alo (ahi - alo)).flatMap fun i =>
      (List.range' blo (bhi - blo)).map fun j => (i, j)
  cands.foldl (bestStep a b ahi bhi) (alo, blo, 0)

/-- The recursive block collection of
`difflib.SequenceMatcher.get_matching_blocks`: find the longest match of the
window, then recurse on the part before and the part after it.  The in-order
concatenation returns the blocks already sorted.  `fuel` bounds the
recursion depth; `get_matching_blocks` passes enough for the windows to be
exhausted. -/
def matchingBlocksAux (a b : List String) :
    Nat → Nat × Nat × Nat × Nat → List (Nat × Nat × Nat)
  | 0, _ => []
  | fuel + 1, (alo, ahi, blo, bhi) =>
      let m := find_longest_match a b alo ahi blo bhi
      if m.2.2 = 0 then []
      else
        matchingBlocksAux a b fuel (alo, m.1, blo, m.2.1) ++
          [m] ++ matchingBlocksAux a b fuel (m.1 + m.2.2, ahi, m.2.1 + m.2.2, bhi)

/-- The second phase of `get_matching_blocks`: adjacent blocks are merged,
empty carried blocks dropped, and the terminal `(len(a), len(b), 0)` block
appended. -/
def mergeBlocks (blocks : List (Nat × Nat × Nat)) (la lb : Nat) :
    List (Nat × Nat × Nat) :=
  let st := blocks.foldl
    (fun (st : Nat × Nat × Nat × List (Nat × Nat × Nat)) blk =>
      let (i1, j1, k1, acc) := st
      let (i2, j2, k2) := blk
      if i1 + k1 = i2 ∧ j1 + k1 = j2 then (i1, j1, k1 + k2, acc)
      else if k1 ≠ 0 then (i2, j2, k2, acc ++ [(i1, j1, k1)])
      else (i2, j2, k2, acc))
    (0, 0, 0, [])
  (if st.2.2.1 ≠ 0 then st.2.2.2 ++ [(st.1, st.2.1, st.2.2.1)] else st.2.2.2) ++
    [(la, lb, 0)]

/-- Model of `difflib.SequenceMatcher.get_matching_blocks` for the two line lists. -/
def get_matching_blocks (a b : List String) : List (Nat × Nat × Nat) :=
  mergeBlocks (matchingBlocksAux a b (a.length + b.length + 1) (0, a.length, 0, b.length))
    a.length b.length

/-- An opcode `(tag, a_start, a_end, b_start, b_end)` as produced by
`SequenceMatcher.get_opcodes`. -/
abbrev Opcode := String × Nat × Nat × Nat × Nat

/-- Model of `difflib.SequenceMatcher.get_opcodes`: walk the matching blocks emitting
`replace`/`delete`/`insert` opcodes for the gaps and `equal` opcodes for the
blocks themselves. -/
def get_opcodes (a b : List String) : List Opcode :=
  let st := (get_matching_blocks a b).foldl
    (fun (st : Nat × Nat × List Opcode) blk =>
      let (i, j, answer) := st
      let (ai, bj, size) := blk
      let tag : String :=
        if i < ai ∧ j < bj then "replace"
        else if i < ai then "delete"
        else if j < bj then "insert"
        else ""
      let answer := if tag ≠ "" then answer ++ [(tag, i, ai, j, bj)] else answer
      let answer :=
        if size ≠ 0 then answer ++ [("equal", ai, ai + size, bj, bj + size)]
        else answer
      (ai + size, bj + size, answer))
    (0, 0, [])
  st.2.2

/-- Output of `AutomationController.compare_results`: the two rendered line
sequences and the opcodes between them. -/
structure CompareOut where
  first : List String
  second : List String
  opcodes : List Opcode

/-- Embedding of `AutomationController.compare_results` (`eNMS/controller/automation.py`),
parametrized by the two payloads the nested `get_results` calls return: the
first payload is rendered by `str_dict` twice (the second application sees a
string), the second once, both are split into lines and diffed. -/
def compare_results (first_payload second_payload : Value) : CompareOut :=
  let first := splitlines (str_dict (.str (str_dict first_payload 0)) 0)
  let second := splitlines (str_dict second_payload 0)
  { first := first, second := second, opcodes := get_opcodes first second }

lemma runLen_le (a b : List String) : ∀ lim i j, runLen a b i j lim ≤ lim := by
  intro lim
  induction lim with
  | zero => intro i j; simp [runLen]
  | succ lim ih =>
      intro i j
      simp only [runLen]
      split
      · split
        · exact Nat.succ_le_succ (ih _ _)
        · exact Nat.zero_le _
      · exact Nat.zero_le _

lemma runLen_self (l : List String) : ∀ lim i, runLen l l i i lim = min lim (l.length - i) := by
  intro lim
  induction lim with
  | zero => intro i; simp [runLen]
  | succ lim ih =>
      intro i
      simp only [runLen]
      split
      next x y hx hy =>
        have hxy : x = y := by rw [hx] at hy; exact Option.some.inj hy
        have hi : i < l.length := (List.getElem?_eq_some_iff.mp hx).1
        rw [if_pos hxy, ih (i + 1)]
        omega
      next hcatch =>
        rcases hnone : l[i]? with _ | x
        · have : l.length ≤ i := List.getElem?_eq_none_iff.mp hnone
          omega
        · exact (hcatch x x hnone hnone).elim

lemma bestStep_fixed (l : List String) (best : Nat × Nat × Nat)
    (hb : l.length ≤ best.2.2) (c : Nat × Nat) :
    bestStep l l l.length l.length best c = best := by
  dsimp only [bestStep]
  have h := runLen_le l l (min (l.length - c.1) (l.length - c.2)) c.1 c.2
  rw [if_neg (by omega)]

lemma flm_empty_a (a b : List String) (alo blo bhi : Nat) :
    find_longest_match a b alo alo blo bhi = (alo, blo, 0) := by
  simp [find_longest_match]

lemma flm_self (l : List String) (h : 0 < l.length) :
    find_longest_match l l 0 l.length 0 l.length = (0, 0, l.length) := by
  obtain ⟨m, hm⟩ : ∃ m, l.length = m + 1 := ⟨l.length - 1, by omega⟩
  simp only [find_longest_match, Nat.sub_zero]
  rw [hm, List.range'_succ 0 m 1, List.flatMap_cons, List.map_cons, List.cons_append,
    List.foldl_cons]
  have h1 : bestStep l l l.length l.length (0, 0, 0) (0, 0) = (0, 0, l.length) := by
    dsimp only [bestStep]
    rw [runLen_self]
    simp only [Nat.min_self, Nat.sub_zero]
    rw [if_pos (by omega)]
  rw [hm] at h1
  rw [h1]
  rw [← hm]
  exact List.foldl_fixed' (bestStep_fixed l (0, 0, l.length) (le_refl _)) _

lemma mba_empty_a (a b : List String) :
    ∀ fuel alo blo bhi, matchingBlocksAux a b fuel (alo, alo, blo, bhi) = [] := by
  intro fuel alo blo bhi
  cases fuel with
  | zero => rfl
  | succ fuel => simp [matchingBlocksAux, flm_empty_a]

lemma mba_self (l : List String) (h : 0 < l.length) :
    matchingBlocksAux l l (l.length + l.length + 1) (0, l.length, 0, l.length) =
      [(0, 0, l.length)] := by
  simp only [matchingBlocksAux, flm_self l h]
  rw [if_neg (by omega)]
  simp only [Nat.zero_add]
  rw [mba_empty_a, mba_empty_a]
  simp

lemma mergeBlocks_single (n la lb : Nat) (h : n ≠ 0) :
    mergeBlocks [(0, 0, n)] la lb = [(0, 0, n), (la, lb, 0)] := by
  simp [mergeBlocks, h]

lemma gmb_self (l : List String) :
    get_matching_blocks l l =
      if l.length = 0 then [(0, 0, 0)]
      else [(0, 0, l.length), (l.length, l.length, 0)] := by
  by_cases h : l.length = 0
  · rw [if_pos h]
    simp only [get_matching_blocks, h]
    rw [mba_empty_a]
    simp [mergeBlocks]
  · rw [if_neg h]
    simp only [get_matching_blocks]
    rw [mba_self l (by omega), mergeBlocks_single _ _ _ h]

lemma get_opcodes_self (l : List String) :
    get_opcodes l l =
      if l.length = 0 then []
      else [("equal", 0, l.length, 0, l.length)] := by
  by_cases h : l.length = 0
  · rw [if_pos h]
    simp only [get_opcodes, gmb_self, h, if_pos rfl, List.foldl_cons, List.foldl_nil]
    norm_num
  · rw [if_neg h]
    simp only [get_opcodes, gmb_self, if_neg h, List.foldl_cons, List.foldl_nil]
    norm_num [h]

lemma str_dict_str (s : String) (depth : Nat) : str_dict (.str s) depth = s := by
  simp [str_dict]

/-- Claim C6: for every payload X, compare_results applied to X on both
sides (each side canonicalized by str_dict into a line sequence and the two
line sequences diffed with the LCS opcode algorithm) yields an opcode list
containing only equal opcodes, and those opcodes cover the full line range
of both sides. -/
theorem compare_results_self_all_equal (X : Value) :
    (∀ op ∈ (compare_results X X).opcodes, op.1 = "equal") ∧
    (compare_results X X).first = (compare_results X X).second ∧
    (compare_results X X).opcodes =
      (if (compare_results X X).first.length = 0 then []
       else [("equal", 0, (compare_results X X).first.length, 0,
              (compare_results X X).second.length)]) := by
  have h1 : str_dict (.str (str_dict X 0)) 0 = str_dict X 0 := str_dict_str _ _
  have hf : (compare_results X X).first = splitlines (str_dict X 0) := by
    simp [compare_results, h1]
  have hs : (compare_results X X).second = splitlines (str_dict X 0) := by
    simp [compare_results]
  have hop : (compare_results X X).opcodes =
      get_opcodes (splitlines (str_dict X 0)) (splitlines (str_dict X 0)) := by
    simp [compare_results, h1]
  refine ⟨?_, by rw [hf, hs], ?_⟩
  · intro op hmem
    rw [hop, get_opcodes_self] at hmem
    by_cases h : (splitlines (str_dict X 0)).length = 0
    · rw [if_pos h] at hmem
      exact absurd hmem (List.not_mem_nil op)
    · rw [if_neg h] at hmem
      rcases List.mem_singleton.mp hmem with rfl
      rfl
  · rw [hop, hf, hs, get_opcodes_self]

/-- Claim C10: str_dict is a total deterministic canonicalizer that is the
identity on strings at every depth, hence idempotent; consequently the extra
second application of str_dict that compare_results performs on its first
payload never changes the rendered line sequence, and equal payloads render
to equal line sequences on both sides. -/
theorem str_dict_idempotent_canonicalizer :
    (∀ s depth, str_dict (.str s) depth = s) ∧
    (∀ x d d2, str_dict (.str (str_dict x d)) d2 = str_dict x d) ∧
    (∀ X Y : Value, (compare_results X Y).first = splitlines (str_dict X 0)) ∧
    (∀ X : Value, (compare_results X X).first = (compare_results X X).second) := by
  refine ⟨fun s depth => str_dict_str s depth,
          fun x d d2 => str_dict_str (str_dict x d) d2, ?_, ?_⟩
  · intro X Y
    simp [compare_results, str_dict_str]
  · intro X
    simp [compare_results, str_dict_str]

def digitVal (c : Char) : Nat := c.toNat - 48

def strVal (l : List Char) : Nat := l.foldl (fun a c => a * 10 + digitVal c) 0

lemma foldl_digit_horner : ∀ (l : List Char) (a : Nat),
    l.foldl (fun x c => x * 10 + digitVal c) a = a * 10 ^ l.length + strVal l := by
  intro l
  induction l with
  | nil => intro a; simp [strVal]
  | cons c cs ih =>
      intro a
      have hs : strVal (c :: cs) = digitVal c * 10 ^ cs.length + strVal cs := by
        simp only [strVal, List.foldl_cons]
        rw [ih (0 * 10 + digitVal c)]
        simp only [strVal]
        ring
      simp only [List.foldl_cons, List.length_cons, hs]
      rw [ih (a * 10 + digitVal c)]
      ring

lemma digitVal_digitChar : ∀ m : Fin 10, digitVal (Nat.digitChar m.val) = m.val := by decide

lemma digitChar_isDigit : ∀ m : Fin 10, (Nat.digitChar m.val).isDigit = true := by decide

lemma toDigitsCore_val : ∀ fuel n acc, n < 10 ^ fuel →
    strVal (Nat.toDigitsCore 10 fuel n acc) = n * 10 ^ acc.length + strVal acc := by
  intro fuel
  induction fuel with
  | zero =>
      intro n acc h
      have : n = 0 := by simpa using h
      subst this
      simp [Nat.toDigitsCore]
  | succ fuel ih =>
      intro n acc h
      have hmod : n % 10 < 10 := Nat.mod_lt n (by norm_num)
      have hdv : digitVal (Nat.digitChar (n % 10)) = n % 10 := digitVal_digitChar ⟨n % 10, hmod⟩
      have hcons : ∀ tl : List Char, strVal (Nat.digitChar (n % 10) :: tl) =
          (n % 10) * 10 ^ tl.length + strVal tl := by
        intro tl
        simp only [strVal, List.foldl_cons]
        rw [foldl_digit_horner tl (0 * 10 + digitVal (Nat.digitChar (n % 10))), hdv]
        simp only [strVal]
        ring
      by_cases hd : n / 10 = 0
      · have hrw : Nat.toDigitsCore 10 (fuel + 1) n acc = Nat.digitChar (n % 10) :: acc := by
          simp [Nat.toDigitsCore, hd]
        rw [hrw, hcons acc]
        have hn : n % 10 = n := by omega
        rw [hn]
      · have hrw : Nat.toDigitsCore 10 (fuel + 1) n acc =
            Nat.toDigitsCore 10 fuel (n / 10) (Nat.digitChar (n % 10) :: acc) := by
          simp [Nat.toDigitsCore, hd]
        have hlt : n / 10 < 10 ^ fuel := by
          rw [Nat.div_lt_iff_lt_mul (by norm_num : (0:Nat) < 10)]
          calc n < 10 ^ (fuel + 1) := h
          _ = 10 ^ fuel * 10 := by rw [pow_succ]
        rw [hrw, ih (n / 10) _ hlt, List.length_cons, hcons acc]
        have h10 : n / 10 * 10 + n % 10 = n := by omega
        have : n / 10 * 10 ^ (acc.length + 1) + (n % 10 * 10 ^ acc.length + strVal acc) =
            (n / 10 * 10 + n % 10) * 10 ^ acc.length + strVal acc := by ring
        rw [this, h10]

lemma toDigitsCore_digits : ∀ fuel n (acc : List Char), (∀ c ∈ acc, c.isDigit = true) →
    ∀ c ∈ Nat.toDigitsCore 10 fuel n acc, c.isDigit = true := by
  intro fuel
  induction fuel with
  | zero => intro n acc hacc; simpa [Nat.toDigitsCore] using hacc
  | succ fuel ih =>
      intro n acc hacc
      have hmod : n % 10 < 10 := Nat.mod_lt n (by norm_num)
      have hnew : ∀ c ∈ Nat.digitChar (n % 10) :: acc, c.isDigit = true := by
        intro c hc
        rcases List.mem_cons.mp hc with rfl | hc
        · exact digitChar_isDigit ⟨n % 10, hmod⟩
        · exact hacc c hc
      by_cases hd : n / 10 = 0
      · intro c hc
        rw [show Nat.toDigitsCore 10 (fuel + 1) n acc = Nat.digitChar (n % 10) :: acc by
          simp [Nat.toDigitsCore, hd]] at hc
        exact hnew c hc
      · intro c hc
        rw [show Nat.toDigitsCore 10 (fuel + 1) n acc =
            Nat.toDigitsCore 10 fuel (n / 10) (Nat.digitChar (n % 10) :: acc) by
          simp [Nat.toDigitsCore, hd]] at hc
        exact ih (n / 10) _ hnew c hc

lemma strVal_repr (n : Nat) : strVal (Nat.repr n).data = n := by
  have hlt : n < 10 ^ (n + 1) :=
    lt_of_lt_of_le (Nat.lt_pow_self (by norm_num) n)
      (Nat.pow_le_pow_right (by norm_num) (Nat.le_succ n))
  have := toDigitsCore_val (n + 1) n [] hlt
  simpa [strVal] using this

lemma repr_digits (n : Nat) : ∀ c ∈ (Nat.repr n).data, c.isDigit = true := by
  have : (Nat.repr n).data = Nat.toDigitsCore 10 (n + 1) n [] := rfl
  rw [this]
  exact toDigitsCore_digits (n + 1) n [] (by simp)

lemma repr_data_inj {m n : Nat} (h : (Nat.repr m).data = (Nat.repr n).data) : m = n := by
  have hm := strVal_repr m
  rw [h, strVal_repr n] at hm
  omega

lemma not_mem_repr_of_not_digit {c : Char} (hc : c.isDigit = false) (n : Nat) :
    c ∉ (Nat.repr n).data := by
  intro hmem
  have := repr_digits n c hmem
  rw [hc] at this
  exact Bool.noConfusion this

lemma marker_append_inj {m : Char} : ∀ {u u' d d' : List Char}, m ∉ d → m ∉ d' →
    u ++ m :: d = u' ++ m :: d' → u = u' ∧ d = d' := by
  intro u
  induction u with
  | nil =>
      intro u' d d' hd hd' h
      cases u' with
      | nil => simpa using h
      | cons c u2 =>
          exfalso
          simp only [List.nil_append, List.cons_append, List.cons.injEq] at h
          exact hd (h.2 ▸ List.mem_append_right u2 (List.mem_cons_self m d'))
  | cons c u0 ih =>
      intro u' d d' hd hd' h
      cases u' with
      | nil =>
          exfalso
          simp only [List.cons_append, List.nil_append, List.cons.injEq] at h
          exact hd' (h.2 ▸ List.mem_append_right u0 (List.mem_cons_self m d))
      | cons c2 u2 =>
          simp only [List.cons_append, List.cons.injEq] at h
          obtain ⟨h1, h2⟩ := ih hd hd' h.2
          exact ⟨by rw [h.1, h1], h2⟩

/-- The name `AutomationController.add_edge` derives for a workflow edge:
the f-string `"{workflow_id}-{subtype}:{source}->{destination}"`. -/
def edge_name (workflow_id : Nat) (subtype : String) (source destination : Nat) : String :=
  Nat.repr workflow_id ++ "-" ++ subtype ++ ":" ++
    Nat.repr source ++ "->" ++ Nat.repr destination

/-- A `WorkflowEdge` row as created through `factory("WorkflowEdge", ...)`. -/
structure WEdge where
  name : String
  subtype : String
  source : Nat
  destination : Nat
deriving DecidableEq

/-- The edge built by `AutomationController.add_edge`. -/
def add_edge (workflow_id : Nat) (subtype : String) (source destination : Nat) : WEdge :=
  { name := edge_name workflow_id subtype source destination
    subtype := subtype
    source := source
    destination := destination }

/-- The copied edges built by `AutomationController.duplicate_workflow`: each
parent edge is recreated under the new workflow id with its name rederived
by the same f-string from the new id and the copied subtype / source /
destination. -/
def duplicate_workflow_edges (new_workflow_id : Nat) (parent_edges : List WEdge) :
    List WEdge :=
  parent_edges.map fun e => add_edge new_workflow_id e.subtype e.source e.destination

lemma string_eq_of_data {s t : String} (h : s.data = t.data) : s = t := by
  cases s; cases t; exact congrArg String.mk h

lemma edge_name_inj {w : Nat} {sub sub2 : String} {s s2 d d2 : Nat}
    (h : edge_name w sub s d = edge_name w sub2 s2 d2) :
    sub = sub2 ∧ s = s2 ∧ d = d2 := by
  have hdata := congrArg String.data h
  simp only [edge_name, String.data_append] at hdata
  simp only [List.append_assoc, List.cons_append, List.nil_append] at hdata
  have h0 := List.append_cancel_left hdata
  have h1 : sub.data ++ ':' :: ((Nat.repr s).data ++ '-' :: '>' :: (Nat.repr d).data) =
      sub2.data ++ ':' :: ((Nat.repr s2).data ++ '-' :: '>' :: (Nat.repr d2).data) :=
    List.cons.inj h0 |>.2
  have hgt : ('>' : Char).isDigit = false := by decide
  have hcol : (':' : Char).isDigit = false := by decide
  have h2 : (sub.data ++ ':' :: ((Nat.repr s).data ++ ['-'])) ++ '>' :: (Nat.repr d).data =
      (sub2.data ++ ':' :: ((Nat.repr s2).data ++ ['-'])) ++ '>' :: (Nat.repr d2).data := by
    simpa [List.append_assoc] using h1
  obtain ⟨h3, hd⟩ := marker_append_inj (not_mem_repr_of_not_digit hgt d)
    (not_mem_repr_of_not_digit hgt d2) h2
  have h4 : (sub.data ++ ':' :: (Nat.repr s).data) ++ '-' :: ([] : List Char) =
      (sub2.data ++ ':' :: (Nat.repr s2).data) ++ '-' :: ([] : List Char) := by
    simpa [List.append_assoc] using h3
  obtain ⟨h5, -⟩ := marker_append_inj (List.not_mem_nil '-') (List.not_mem_nil '-') h4
  obtain ⟨h6, hs⟩ := marker_append_inj (not_mem_repr_of_not_digit hcol s)
    (not_mem_repr_of_not_digit hcol s2) h5
  exact ⟨string_eq_of_data h6, repr_data_inj hs, repr_data_inj hd⟩

/-- Claim C7: every edge created by add_edge is named by the deterministic
rule `"{workflow_id}-{subtype}:{source}->{destination}"`; within one
workflow the rule is injective in (subtype, source, destination), so names
stay unique whenever those triples are distinct; duplicate_workflow
rederives each copied edge name by the same rule from the new workflow id. -/
theorem add_edge_name_deterministic_unique :
    (∀ w sub s d, (add_edge w sub s d).name = edge_name w sub s d) ∧
    (∀ w sub s d sub2 s2 d2, edge_name w sub s d = edge_name w sub2 s2 d2 →
       sub = sub2 ∧ s = s2 ∧ d = d2) ∧
    (∀ nid edges, ∀ e ∈ duplicate_workflow_edges nid edges,
       e.name = edge_name nid e.subtype e.source e.destination) := by
  refine ⟨fun w sub s d => rfl, fun w sub s d sub2 s2 d2 h => edge_name_inj h, ?_⟩
  intro nid edges e he
  obtain ⟨p, -, rfl⟩ := List.mem_map.mp he
  rfl

/-- Witness for `add_edge_name_deterministic_unique`: the injectivity and
duplication clauses applied at concrete edges. -/
theorem add_edge_name_deterministic_unique_witness :
    ("success" = "success" ∧ 2 = 2 ∧ 3 = 3) ∧
    (add_edge 7 "failure" 4 5).name =
      edge_name 7 (add_edge 7 "failure" 4 5).subtype (add_edge 7 "failure" 4 5).source
        (add_edge 7 "failure" 4 5).destination := by
  constructor
  · exact add_edge_name_deterministic_unique.2.1 1 "success" 2 3 "success" 2 3 rfl
  · exact add_edge_name_deterministic_unique.2.2 7 [add_edge 1 "failure" 4 5]
      (add_edge 7 "failure" 4 5)
      (by simp [duplicate_workflow_edges, add_edge])


/-- A device row; only its id matters to target resolution. -/
structure Device where
  id : Nat
deriving DecidableEq

/-- A pool: a dynamic device group; `devices` is its current membership. -/
structure Pool where
  devices : List Device
deriving DecidableEq

/-- The trigger half of the dict `Task.kwargs` builds for APScheduler. -/
inductive Trigger where
  | cron (expr : String)
  | interval (start_date end_date : Option String) (seconds : Int)
  | date (run_date : Option String)
deriving DecidableEq

/-- A Task row (`eNMS/models/events.py`) with the fields `Task.kwargs`,
`Task.schedule` and `Task.compute_targets` read and write. -/
structure Task where
  aps_job_id : String
  job_id : Nat
  scheduling_mode : String
  periodic : Bool
  frequency : Option Int
  frequency_unit : String
  start_date : Option String
  end_date : Option String
  crontab_expression : Option String
  devices : List Device
  pools : List Pool

/-- Embedding of `Task.aps_conversion`: re-render a `"DD/MM/YYYY HH:MM:SS"` date string
in the `"YYYY-MM-DD HH:MM:SS"` form handed to APScheduler; `none` models the
`strptime` exception on a malformed string. -/
def aps_conversion (date : String) : Option String :=
  match date.data with
  | [d1, d2, '/', m1, m2, '/', y1, y2, y3, y4, ' ',
     h1, h2, ':', mi1, mi2, ':', s1, s2] =>
      if [d1, d2, m1, m2, y1, y2, y3, y4, h1, h2, mi1, mi2, s1, s2].all Char.isDigit then
        some (String.mk [y1, y2, y3, y4, '-', m1, m2, '-', d1, d2, ' ',
          h1, h2, ':', mi1, mi2, ':', s1, s2])
      else Option.none
  | _ => Option.none

/-- Embedding of `Task.aps_date`: a falsy stored date gives `None`, otherwise the
converted date; the outer `Option` is the `strptime` failure. -/
def aps_date (date : Option String) : Option (Option String) :=
  match date with
  | Option.none => some Option.none
  | some s => if s = "" then some Option.none else (aps_conversion s).map some

/-- The `{"seconds": 1, "minutes": 60, "hours": 3600, "days": 86400}` lookup
inside `Task.kwargs`; `none` models the `KeyError` on any other unit. -/
def frequency_unit_seconds : String → Option Nat
  | "seconds" => some 1
  | "minutes" => some 60
  | "hours" => some 3600
  | "days" => some 86400
  | _ => Option.none

/-- Python truthiness of the nullable integer column `frequency`. -/
def int_truthy : Option Int → Bool
  | Option.none => false
  | some n => n != 0

/-- Embedding of `Task.compute_targets`: the set union of the ids of the explicitly bound
devices with the ids of the devices of every bound pool. -/
def compute_targets (t : Task) : Finset Nat :=
  t.pools.foldl (fun acc p => acc ∪ (p.devices.map Device.id).toFinset)
    ((t.devices.map Device.id).toFinset)

/-- The non-trigger half of the dict built by `Task.kwargs` (the scheduler
job id and the arguments handed to `threaded_job`). -/
structure SchedulerJobArgs where
  id : String
  job_id : Nat
  targets : Finset Nat

/-- The `default` dict of `Task.kwargs`. -/
def task_default_args (t : Task) : SchedulerJobArgs :=
  { id := t.aps_job_id, job_id := t.job_id, targets := compute_targets t }

/-- Embedding of `Task.kwargs` (`eNMS/models/events.py`): branch on
`scheduling_mode == "cron"`, then on the truthiness of `frequency`, setting
`periodic` accordingly and building the matching trigger; `none` models the
exceptions (missing crontab expression, unknown unit, bad date string). -/
def task_kwargs (t : Task) : Option (Task × SchedulerJobArgs × Trigger) :=
  if t.scheduling_mode = "cron" then
    match t.crontab_expression with
    | some expr => some ({ t with periodic := true }, task_default_args t, .cron expr)
    | Option.none => Option.none
  else if int_truthy t.frequency then
    match t.frequency, frequency_unit_seconds t.frequency_unit with
    | some f, some u =>
        match aps_date t.start_date, aps_date t.end_date with
        | some sd, some ed =>
            some ({ t with periodic := true }, task_default_args t,
              .interval sd ed (f * (u : Int)))
        | _, _ => Option.none
    | _, _ => Option.none
  else
    match aps_date t.start_date with
    | some sd => some ({ t with periodic := false }, task_default_args t, .date sd)
    | Option.none => Option.none

/-- The APScheduler job store: live scheduler jobs keyed by job id. -/
abbrev Scheduler := List (String × Trigger)

/-- Model of `scheduler.get_job`. -/
def get_job (s : Scheduler) (id : String) : Option Trigger :=
  (s.find? (fun e => e.1 == id)).map (·.2)

/-- Model of `scheduler.add_job` with the `replace_existing=True` flag
`Task.kwargs` always passes: replace the entry in place when the id is
live, otherwise append a new entry. -/
def add_job (s : Scheduler) (id : String) (tr : Trigger) : Scheduler :=
  if (s.find? (fun e => e.1 == id)).isSome then
    s.map (fun e => if e.1 == id then (id, tr) else e)
  else s ++ [(id, tr)]

/-- Model of `scheduler.reschedule_job`: change the trigger of the live entry in
place (identity preserved). -/
def reschedule_job (s : Scheduler) (id : String) (tr : Trigger) : Scheduler :=
  s.map (fun e => if e.1 == id then (id, tr) else e)

/-- Embedding of `Task.schedule`: build the kwargs, then `add_job` when no live
scheduler job exists for `aps_job_id` and `reschedule_job` otherwise;
`none` models a `Task.kwargs` exception, which leaves the store unchanged. -/
def schedule (t : Task) (s : Scheduler) : Option Scheduler :=
  (task_kwargs t).map fun r =>
    if (get_job s t.aps_job_id).isNone then add_job s t.aps_job_id r.2.2
    else reschedule_job s t.aps_job_id r.2.2

/-- Any sequence of `Task.schedule` calls (a failing call changes nothing). -/
def schedule_seq (ts : List Task) (s : Scheduler) : Scheduler :=
  ts.foldl (fun st t => (schedule t st).getD st) s

/-- A task whose crontab expression is set while its scheduling mode is the
default `"standard"` and its frequency is unset. -/
def cron_expr_task : Task :=
  { aps_job_id := "t1", job_id := 1, scheduling_mode := "standard",
    periodic := true, frequency := Option.none, frequency_unit := "seconds",
    start_date := Option.none, end_date := Option.none,
    crontab_expression := some "* * * * *", devices := [], pools := [] }

/-- Counterexample to claim C2: `Task.kwargs` does not branch on whether
`crontab_expression` is set and never forces `scheduling_mode`; on a task
with a crontab expression but `scheduling_mode = "standard"` and no
frequency it produces a one-shot date trigger and marks the task
non-periodic instead of the claimed cron trigger. -/
theorem task_kwargs_crontab_not_forced :
    cron_expr_task.crontab_expression = some "* * * * *" ∧
    (task_kwargs cron_expr_task).map
        (fun r => (r.1.scheduling_mode, r.1.periodic, r.2.2)) =
      some ("standard", false, Trigger.date Option.none) := by
  constructor
  · rfl
  · rfl

/-- Claim C2 (amended): `Task.kwargs` branches on
`scheduling_mode = "cron"` (not on `crontab_expression` being set, and it
never modifies `scheduling_mode`): in the cron branch the task is marked
periodic and a cron trigger is built from `crontab_expression`; otherwise a
truthy `frequency` gives a periodic interval trigger of exactly
`frequency * unit_seconds` seconds bounded by the converted optional
start and end dates, where unit_seconds maps seconds/minutes/hours/days to
1/60/3600/86400; otherwise the task is marked non-periodic with a one-shot
date trigger at the converted `start_date`, immediate (`none`) when the
date is absent. -/
theorem task_kwargs_trigger_resolution (t : Task) :
    (∀ e, t.scheduling_mode = "cron" → t.crontab_expression = some e →
       task_kwargs t =
         some ({ t with periodic := true }, task_default_args t, Trigger.cron e)) ∧
    (∀ f u sd ed, t.scheduling_mode ≠ "cron" → t.frequency = some f → f ≠ 0 →
       frequency_unit_seconds t.frequency_unit = some u →
       aps_date t.start_date = some sd → aps_date t.end_date = some ed →
       task_kwargs t =
         some ({ t with periodic := true }, task_default_args t,
           Trigger.interval sd ed (f * (u : Int)))) ∧
    (∀ sd, t.scheduling_mode ≠ "cron" → int_truthy t.frequency = false →
       aps_date t.start_date = some sd →
       task_kwargs t =
         some ({ t with periodic := false }, task_default_args t, Trigger.date sd)) ∧
    (frequency_unit_seconds "seconds" = some 1 ∧
     frequency_unit_seconds "minutes" = some 60 ∧
     frequency_unit_seconds "hours" = some 3600 ∧
     frequency_unit_seconds "days" = some 86400) := by
  refine ⟨?_, ?_, ?_, rfl, rfl, rfl, rfl⟩
  · intro e hmode hexpr
    simp [task_kwargs, hmode, hexpr]
  · intro f u sd ed hmode hf hf0 hu hsd hed
    have htr : int_truthy (some f) = true := by
      show (f != 0) = true
      simp [hf0]
    simp [task_kwargs, hmode, hf, htr, hu, hsd, hed]
  · intro sd hmode hfreq hsd
    simp [task_kwargs, hmode, hfreq, hsd]

/-- The counterexample task switched to cron scheduling mode. -/
def cron_mode_task : Task := { cron_expr_task with scheduling_mode := "cron" }

/-- A standard-mode task with a five-minute frequency. -/
def interval_task : Task :=
  { cron_expr_task with frequency := some 5, frequency_unit := "minutes" }

/-- Witness for `task_kwargs_trigger_resolution`: all three branches at
concrete tasks. -/
theorem task_kwargs_trigger_resolution_witness :
    task_kwargs cron_mode_task =
      some ({ cron_mode_task with periodic := true },
        task_default_args cron_mode_task, Trigger.cron "* * * * *") ∧
    task_kwargs interval_task =
      some ({ interval_task with periodic := true },
        task_default_args interval_task,
        Trigger.interval Option.none Option.none 300) ∧
    task_kwargs cron_expr_task =
      some ({ cron_expr_task with periodic := false },
        task_default_args cron_expr_task, Trigger.date Option.none) := by
  refine ⟨?_, ?_, ?_⟩
  · exact (task_kwargs_trigger_resolution _).1 "* * * * *" rfl rfl
  · exact (task_kwargs_trigger_resolution _).2.1 5 60 Option.none Option.none
      (by decide) rfl (by decide) rfl rfl rfl
  · exact (task_kwargs_trigger_resolution _).2.2.1 Option.none (by decide) rfl rfl

lemma keys_map_replace (s : Scheduler) (id : String) (tr : Trigger) :
    (s.map (fun e => if e.1 == id then (id, tr) else e)).map Prod.fst =
      s.map Prod.fst := by
  induction s with
  | nil => rfl
  | cons e rest ih =>
      simp only [List.map_cons, ih]
      by_cases h : e.1 == id
      · simp only [h, if_pos rfl]
        have : e.1 = id := by simpa using h
        simp [this]
      · simp [h]

lemma find_none_key_not_mem (s : Scheduler) (id : String)
    (h : s.find? (fun e => e.1 == id) = Option.none) : id ∉ s.map Prod.fst := by
  intro hmem
  rcases List.mem_map.mp hmem with ⟨e, he, hfst⟩
  have := List.find?_eq_none.mp h e he
  simp [hfst] at this

lemma filter_length_le_one_of_nodup_keys (s : Scheduler) (id : String)
    (h : (s.map Prod.fst).Nodup) :
    (s.filter (fun e => e.1 == id)).length ≤ 1 := by
  induction s with
  | nil => simp
  | cons e rest ih =>
      simp only [List.map_cons, List.nodup_cons] at h
      by_cases he : e.1 == id
      · have hid : e.1 = id := by simpa using he
        have hnone : rest.filter (fun x => x.1 == id) = [] := by
          rw [List.filter_eq_nil_iff]
          intro x hx hxid
          have : x.1 = id := by simpa using hxid
          exact h.1 (List.mem_map.mpr ⟨x, hx, by rw [this, hid]⟩)
        simp [List.filter_cons, he, hnone]
      · simp only [List.filter_cons, he]
        simpa using ih h.2

lemma schedule_preserves_nodup_keys (t : Task) (s : Scheduler)
    (h : (s.map Prod.fst).Nodup) :
    (((schedule t s).getD s).map Prod.fst).Nodup := by
  rcases hk : task_kwargs t with _ | r
  · simp [schedule, hk, h]
  · simp only [schedule, hk, Option.map_some', Option.getD_some]
    by_cases hg : (get_job s t.aps_job_id).isNone
    · rw [if_pos hg]
      have hfind : s.find? (fun e => e.1 == t.aps_job_id) = Option.none := by
        rcases hf : s.find? (fun e => e.1 == t.aps_job_id) with _ | e
        · exact hf
        · simp [get_job, hf] at hg
      simp only [add_job, hfind, Option.isSome_none, Bool.false_eq_true, if_false]
      rw [List.map_append]
      simp only [List.map_cons, List.map_nil]
      exact List.Nodup.append h (List.nodup_singleton _)
        (by
          rw [List.disjoint_singleton]
          exact fun hmem => (find_none_key_not_mem s t.aps_job_id hfind) hmem)
    · rw [if_neg hg]
      rw [reschedule_job, keys_map_replace]
      exact h

/-- Claim C3: registering a Task with the scheduler is idempotent in its
`aps_job_id`: when no live scheduler job exists for the id, `Task.schedule`
appends exactly one entry for it; when one exists, it reschedules in place,
changing neither the set of job ids nor the number of live jobs; hence after
any sequence of `Task.schedule` calls starting from a well-formed store at
most one live scheduler job exists per id. -/
theorem schedule_idempotent_per_id (s : Scheduler)
    (hwf : (s.map Prod.fst).Nodup) :
    (∀ t r, task_kwargs t = some r → get_job s t.aps_job_id = Option.none →
       schedule t s = some (s ++ [(t.aps_job_id, r.2.2)])) ∧
    (∀ t tr, get_job s t.aps_job_id = some tr →
       ((schedule t s).getD s).map Prod.fst = s.map Prod.fst ∧
       ((schedule t s).getD s).length = s.length) ∧
    (∀ ts id, ((schedule_seq ts s).filter (fun e => e.1 == id)).length ≤ 1) := by
  refine ⟨?_, ?_, ?_⟩
  · intro t r hk hg
    have hfind : s.find? (fun e => e.1 == t.aps_job_id) = Option.none := by
      rcases hf : s.find? (fun e => e.1 == t.aps_job_id) with _ | e
      · exact hf
      · simp [get_job, hf] at hg
    simp [schedule, hk, hg, add_job, hfind]
  · intro t tr hg
    rcases hk : task_kwargs t with _ | r
    · simp [schedule, hk]
    · have hnot : ¬ (get_job s t.aps_job_id).isNone := by simp [hg]
      constructor
      · simp only [schedule, hk, Option.map_some', Option.getD_some, if_neg hnot]
        exact keys_map_replace s t.aps_job_id r.2.2
      · simp only [schedule, hk, Option.map_some', Option.getD_some, if_neg hnot]
        simp [reschedule_job]
  · intro ts id
    have hnodup : ((schedule_seq ts s).map Prod.fst).Nodup := by
      induction ts generalizing s with
      | nil => exact hwf
      | cons t rest ih =>
          simp only [schedule_seq, List.foldl_cons]
          exact ih _ (schedule_preserves_nodup_keys t s hwf)
    exact filter_length_le_one_of_nodup_keys _ id hnodup

/-- Witness for `schedule_idempotent_per_id`: a fresh registration appends
the single entry, a second call of the same task reschedules in place, and
the sequence bound holds at a concrete store. -/
theorem schedule_idempotent_per_id_witness :
    schedule cron_expr_task [] = some [("t1", Trigger.date Option.none)] ∧
    ((schedule cron_expr_task [("t1", Trigger.cron "* * * * *")]).getD
        [("t1", Trigger.cron "* * * * *")]).map Prod.fst = ["t1"] ∧
    ((schedule_seq [cron_expr_task, cron_expr_task] []).filter
        (fun e => e.1 == "t1")).length ≤ 1 := by
  refine ⟨?_, ?_, ?_⟩
  · exact (schedule_idempotent_per_id [] (by simp)).1 cron_expr_task _ rfl rfl
  · exact ((schedule_idempotent_per_id [("t1", Trigger.cron "* * * * *")]
      (by simp)).2.1 cron_expr_task (Trigger.cron "* * * * *") rfl).1
  · exact (schedule_idempotent_per_id [] (by simp)).2.2 [cron_expr_task, cron_expr_task] "t1"

lemma mem_foldl_pool_union (pools : List Pool) (init : Finset Nat) (x : Nat) :
    x ∈ pools.foldl (fun acc p => acc ∪ (p.devices.map Device.id).toFinset) init ↔
      x ∈ init ∨ ∃ p ∈ pools, ∃ dv ∈ p.devices, dv.id = x := by
  induction pools generalizing init with
  | nil => simp
  | cons p rest ih =>
      simp only [List.foldl_cons, ih, Finset.mem_union, List.mem_toFinset, List.mem_map]
      constructor
      · rintro (⟨hx | ⟨dv, hdv, rfl⟩⟩ | ⟨q, hq, dv, hdv, rfl⟩)
        · exact Or.inl hx
        · exact Or.inr ⟨p, by simp, dv, hdv, rfl⟩
        · exact Or.inr ⟨q, by simp [hq], dv, hdv, rfl⟩
      · rintro (hx | ⟨q, hq, dv, hdv, rfl⟩)
        · exact Or.inl (Or.inl hx)
        · rcases List.mem_cons.mp hq with rfl | hq
          · exact Or.inl (Or.inr ⟨dv, hdv, rfl⟩)
          · exact Or.inr ⟨q, hq, dv, hdv, rfl⟩

/-- Claim C8: `Task.compute_targets` resolves exactly the union of the ids
of the explicitly bound devices with the ids of the current device
membership of every bound pool; the result is a set, so a device bound both
ways appears once, and it is empty when no devices or pools are bound. -/
theorem compute_targets_is_union (t : Task) :
    (∀ x, x ∈ compute_targets t ↔
       ((∃ dv ∈ t.devices, dv.id = x) ∨ ∃ p ∈ t.pools, ∃ dv ∈ p.devices, dv.id = x)) ∧
    (t.devices = [] → t.pools = [] → compute_targets t = ∅) := by
  constructor
  · intro x
    rw [compute_targets, mem_foldl_pool_union]
    simp [List.mem_map]
  · intro hd hp
    rw [compute_targets, hd, hp]
    simp

/-- A task binding device 3 both explicitly and through a pool. -/
def both_bound_task : Task :=
  { cron_expr_task with devices := [⟨3⟩], pools := [⟨[⟨3⟩, ⟨4⟩]⟩] }

/-- Witness for `compute_targets_is_union`: a device bound both explicitly
and through a pool appears once, and no bindings give the empty set. -/
theorem compute_targets_is_union_witness :
    (3 ∈ compute_targets both_bound_task ↔
      ((∃ dv ∈ both_bound_task.devices, dv.id = 3) ∨
        ∃ p ∈ both_bound_task.pools, ∃ dv ∈ p.devices, dv.id = 3)) ∧
    compute_targets cron_expr_task = ∅ := by
  constructor
  · exact (compute_targets_is_union both_bound_task).1 3
  · exact (compute_targets_is_union cron_expr_task).2 rfl rfl


/-- Python substring prefix test on character lists. -/
def starts_with : List Char → List Char → Bool
  | [], _ => true
  | _ :: _, [] => false
  | c :: cs, d :: ds => c == d && starts_with cs ds

/-- Python `in` on strings (`"all" in device`): substring containment. -/
def has_sub (pat : List Char) : List Char → Bool
  | [] => starts_with pat []
  | c :: rest => starts_with pat (c :: rest) || has_sub pat rest

/-- Python `int(...)` on the decimal device-id strings the result views
pass; `none` models the `ValueError` on anything else. -/
def parse_int (s : String) : Option Nat :=
  if s.data ≠ [] ∧ s.data.all Char.isDigit then some (strVal s.data) else Option.none

/-- A Result row as read by the result-retrieval controller methods:
outcome for one (job, device-or-global, runtime). -/
structure ResultRec where
  job_id : Nat
  runtime : String
  device_id : Option Nat
  device_name : String
  success : Bool
  result : Value

/-- A Run row with the fields the controller filters on (`runtime`,
`parent_runtime`, `job_id`, `success`) and its owned results.  The ORM
model itself lives outside the given sources; the fields are those the
controller queries and reads. -/
structure RunRec where
  runtime : String
  parent_runtime : Option String
  job_id : Nat
  job_name : String
  success : Bool
  results : List ResultRec

/-- Python truthiness of `result.device_id` (null or zero is falsy). -/
def device_truthy : Option Nat → Bool
  | Option.none => false
  | some n => n != 0

/-- Return shape of `get_service_results`: one payload, or a device-name
keyed mapping of payloads. -/
inductive SvcOut where
  | single (v : Value)
  | byDevice (entries : List (String × Value))

/-- The filter `get_service_results` hands to `fetch("Run", ...)`: runtime
key (parent runtime when a job is passed), job id, and, for the
`"all passed"`/`"all failed"` device selectors, the Run row success flag. -/
def svc_run_filter (id : Nat) (runtime : String) (device : String)
    (job : Option String) (r : RunRec) : Bool :=
  (match job with
   | some _ => r.parent_runtime == some runtime
   | Option.none => r.runtime == runtime) &&
  r.job_id == id &&
  (if device = "all passed" then r.success == true
   else if device = "all failed" then r.success == false
   else true)

/-- The dict comprehension of the `"all"` branch of `get_service_results`:
every result of the fetched run with a truthy device id, keyed by device
name, with no filter on the result-level success flag. -/
def device_rows (run : RunRec) : List (String × Value) :=
  run.results.filterMap fun r =>
    if device_truthy r.device_id then some (r.device_name, r.result) else Option.none

/-- Embedding of `AutomationController.get_service_results`
(`eNMS/controller/automation.py`): fetch one Run by runtime/job (and run
success for the all-passed/all-failed selectors), then return either the
single matching device result or the device-name keyed mapping. -/
def get_service_results (runs : List RunRec) (id : Nat) (runtime : String)
    (device : String) (job : Option String) : Option SvcOut :=
  match runs.find? (svc_run_filter id runtime device job) with
  | Option.none => Option.none
  | some run =>
      if has_sub "all".data device.data then some (.byDevice (device_rows run))
      else
        match (if device = "global" then some Option.none
               else (parse_int device).map some) with
        | Option.none => Option.none
        | some device_id =>
            (run.results.find? (fun r => device_id == r.device_id)).map
              (fun r => .single r.result)

/-- A per-device result that passed. -/
def passed_result : ResultRec :=
  { job_id := 1, runtime := "r1", device_id := some 1, device_name := "d1",
    success := true, result := .str "ok" }

/-- A per-device result that failed. -/
def failed_result : ResultRec :=
  { job_id := 1, runtime := "r1", device_id := some 2, device_name := "d2",
    success := false, result := .str "ko" }

/-- A failed run holding one passed and one failed per-device result. -/
def mixed_run : RunRec :=
  { runtime := "r1", parent_runtime := Option.none, job_id := 1,
    job_name := "svc", success := false, results := [passed_result, failed_result] }

/-- Counterexample to claim C4: under the "all failed" device selector the
success filter is applied to the fetched Run row, not to the per-device
Results, so the passed result of a failed run is returned as well. -/
theorem get_service_results_all_failed_includes_passed :
    get_service_results [mixed_run] 1 "r1" "all failed" Option.none =
      some (.byDevice [("d1", .str "ok"), ("d2", .str "ko")]) ∧
    passed_result.success = true ∧
    passed_result ∈ mixed_run.results ∧
    ("d1", Value.str "ok") = (passed_result.device_name, passed_result.result) := by
  refine ⟨rfl, rfl, ?_, rfl⟩
  exact List.mem_cons_self _ _

/-- Claim C4 (amended): the "all failed" selector filters the success flag
of the Run row: it returns the device-name keyed results of the first run
of the runtime and job whose own success flag is false — all of that run's
per-device results, the passed ones included — and nothing (`None`) when no
such failed run exists, rather than the per-result failed subset. -/
theorem get_service_results_all_failed_run_level (runs : List RunRec)
    (id : Nat) (runtime : String) :
    (∀ run, runs.find?
        (fun r => r.runtime == runtime && r.job_id == id && r.success == false) =
          some run →
       (get_service_results runs id runtime "all failed" Option.none =
          some (.byDevice (device_rows run)) ∧
        run.success = false ∧
        ∀ r ∈ run.results, device_truthy r.device_id = true →
          (r.device_name, r.result) ∈ device_rows run)) ∧
    (runs.find?
        (fun r => r.runtime == runtime && r.job_id == id && r.success == false) =
          Option.none →
       get_service_results runs id runtime "all failed" Option.none = Option.none) ∧
    (∀ run, runs.find?
        (fun r => r.runtime == runtime && r.job_id == id && r.success == true) =
          some run →
       (get_service_results runs id runtime "all passed" Option.none =
          some (.byDevice (device_rows run)) ∧
        run.success = true)) := by
  have hpred : svc_run_filter id runtime "all failed" Option.none =
      fun r => r.runtime == runtime && r.job_id == id && r.success == false := rfl
  have hpred2 : svc_run_filter id runtime "all passed" Option.none =
      fun r => r.runtime == runtime && r.job_id == id && r.success == true := rfl
  refine ⟨?_, ?_, ?_⟩
  · intro run hfind
    refine ⟨?_, ?_, ?_⟩
    · rw [get_service_results, hpred, hfind]
      rfl
    · have := List.find?_some hfind
      simp at this
      exact this.2
    · intro r hr htr
      exact List.mem_filterMap.mpr ⟨r, hr, by rw [if_pos htr]⟩
  · intro hfind
    rw [get_service_results, hpred, hfind]
  · intro run hfind
    constructor
    · rw [get_service_results, hpred2, hfind]
      rfl
    · have := List.find?_some hfind
      simp at this
      exact this.2

/-- Witness for `get_service_results_all_failed_run_level` at the mixed run
and at an empty store. -/
theorem get_service_results_all_failed_run_level_witness :
    (get_service_results [mixed_run] 1 "r1" "all failed" Option.none =
       some (.byDevice (device_rows mixed_run)) ∧
     mixed_run.success = false ∧
     ∀ r ∈ mixed_run.results, device_truthy r.device_id = true →
       (r.device_name, r.result) ∈ device_rows mixed_run) ∧
    get_service_results [] 1 "r1" "all failed" Option.none = Option.none := by
  constructor
  · exact (get_service_results_all_failed_run_level [mixed_run] 1 "r1").1 mixed_run rfl
  · exact (get_service_results_all_failed_run_level [] 1 "r1").2.1 rfl


/-- A Workflow row: member job ids, owned edges, last-modified stamp. -/
structure Workflow where
  id : Nat
  jobs : List Nat
  edges : List WEdge
  last_modified : String

/-- Embedding of `AutomationController.delete_node` (`eNMS/controller/automation.py`):
remove the job from the workflow membership and stamp `last_modified`; the
workflow edges are not touched. -/
def delete_node (w : Workflow) (job_id : Nat) (now : String) : Workflow :=
  { w with jobs := w.jobs.erase job_id, last_modified := now }

/-- A two-job workflow with one success edge between them. -/
def demo_workflow : Workflow :=
  { id := 1, jobs := [1, 2], edges := [add_edge 1 "success" 1 2],
    last_modified := "t0" }

/-- Counterexample to claim C5: deleting node 1 from the demo workflow
leaves the edge `1 -> 2` retrievable although its source is no longer a
member, violating the no-dangling-edge invariant. -/
theorem delete_node_keeps_dangling_edge :
    (delete_node demo_workflow 1 "t1").edges = [add_edge 1 "success" 1 2] ∧
    add_edge 1 "success" 1 2 ∈ (delete_node demo_workflow 1 "t1").edges ∧
    (add_edge 1 "success" 1 2).source = 1 ∧
    1 ∉ (delete_node demo_workflow 1 "t1").jobs := by
  refine ⟨rfl, List.mem_cons_self _ _, rfl, ?_⟩
  show 1 ∉ [2]
  decide

/-- Claim C5 (amended): `delete_node` removes the job from the workflow
membership and updates `last_modified`, but removes no `WorkflowEdge`:
the edge set is returned unchanged, so edges whose source or destination is
the deleted node remain retrievable. -/
theorem delete_node_removes_membership_only (w : Workflow) (j : Nat) (now : String) :
    (delete_node w j now).edges = w.edges ∧
    (delete_node w j now).last_modified = now ∧
    (delete_node w j now).id = w.id ∧
    (w.jobs.Nodup → j ∉ (delete_node w j now).jobs) := by
  exact ⟨rfl, rfl, rfl, fun h => h.not_mem_erase⟩

/-- Witness for `delete_node_removes_membership_only` at the demo workflow. -/
theorem delete_node_removes_membership_only_witness :
    (delete_node demo_workflow 1 "t1").edges = demo_workflow.edges ∧
    1 ∉ (delete_node demo_workflow 1 "t1").jobs := by
  have h := delete_node_removes_membership_only demo_workflow 1 "t1"
  exact ⟨h.1, h.2.2.2 (by decide)⟩

/-- A Result row as fetched by `restart_workflow` when reusing a prior
run's payload: the workflow-level result for one runtime. -/
structure StoredResult where
  job_id : Nat
  runtime : String
  result : Value

/-- Python `result.result["results"]` style lookup in a dict payload. -/
def dict_get (v : Value) (key : String) : Option Value :=
  match v with
  | .dict kvs => (kvs.find? (fun kv => kv.1 == key)).map (fun kv => kv.2)
  | _ => Option.none

/-- The filter of the `fetch("Result", job_id=workflow_id,
runtime=payload_version)` call in `restart_workflow`; a missing
payload_version matches no stored row. -/
def result_row_filter (workflow_id : Nat) (payload_version : Option String)
    (r : StoredResult) : Bool :=
  r.job_id == workflow_id &&
  (match payload_version with
   | some v => r.runtime == v
   | Option.none => false)

/-- The reuse-payload construction of
`AutomationController.restart_workflow` (`eNMS/controller/automation.py`):
take the `"results"` mapping of the prior result selected by
payload_version (empty when none matches) and keep exactly the top-level
entries whose key is also in `payloads_to_include`, values untouched;
`none` models the `KeyError` on a prior result without a `"results"` dict. -/
def restart_payload (results : List StoredResult) (workflow_id : Nat)
    (payload_version : Option String) (payloads_to_include : List String) :
    Option (List (String × Value)) :=
  match results.find? (result_row_filter workflow_id payload_version) with
  | Option.none => some []
  | some row =>
      match dict_get row.result "results" with
      | some (.dict payload) =>
          some (payload.filter (fun kv => payloads_to_include.contains kv.1))
      | _ => Option.none

/-- Claim C9: restart_workflow builds the reuse payload by intersecting the
top-level keys of the prior run's results mapping with
payloads_to_include — an entry survives exactly when its key is in both,
with its value (the nested per-device data) untransformed — and the reuse
payload is empty when no prior result matches payload_version. -/
theorem restart_payload_shallow_intersection (results : List StoredResult)
    (wid : Nat) (pv : Option String) (inc : List String) :
    (∀ row prior, results.find? (result_row_filter wid pv) = some row →
       dict_get row.result "results" = some (.dict prior) →
       (restart_payload results wid pv inc =
          some (prior.filter (fun kv => inc.contains kv.1)) ∧
        ∀ k v, (k, v) ∈ prior.filter (fun kv => inc.contains kv.1) ↔
          ((k, v) ∈ prior ∧ k ∈ inc))) ∧
    (results.find? (result_row_filter wid pv) = Option.none →
       restart_payload results wid pv inc = some []) := by
  constructor
  · intro row prior hfind hdict
    constructor
    · simp only [restart_payload, hfind, hdict]
    · intro k v
      rw [List.mem_filter]
      simp [List.elem_iff]
  · intro hfind
    simp only [restart_payload, hfind]

/-- A prior workflow result with two job payloads under "results". -/
def prior_result : StoredResult :=
  { job_id := 9, runtime := "v1",
    result := .dict [("results",
      .dict [("jobA", .dict [("dev1", .bool true)]), ("jobB", .str "x")])] }

/-- Witness for `restart_payload_shallow_intersection`: keeping only jobA
preserves its nested data verbatim, and a missing payload_version gives the
empty payload. -/
theorem restart_payload_shallow_intersection_witness :
    (restart_payload [prior_result] 9 (some "v1") ["jobA"] =
       some ([("jobA", Value.dict [("dev1", .bool true)]), ("jobB", .str "x")].filter
         (fun kv => (["jobA"] : List String).contains kv.1)) ∧
     ∀ k v, (k, v) ∈ ([("jobA", Value.dict [("dev1", .bool true)]), ("jobB", .str "x")].filter
         (fun kv => (["jobA"] : List String).contains kv.1)) ↔
       ((k, v) ∈ [("jobA", Value.dict [("dev1", .bool true)]), ("jobB", .str "x")] ∧
         k ∈ (["jobA"] : List String))) ∧
    restart_payload [prior_result] 9 Option.none ["jobA"] = some [] := by
  constructor
  · exact (restart_payload_shallow_intersection [prior_result] 9 (some "v1") ["jobA"]).1
      prior_result _ rfl rfl
  · exact (restart_payload_shallow_intersection [prior_result] 9 Option.none ["jobA"]).2 rfl

/-- A Job row as read by `run_job`: identity, type, status and its
serialized form. -/
structure JobRec where
  id : Nat
  name : String
  type : String
  status : String
  serialized : List (String × Value)

/-- The controller state `run_job` touches: the job table, the APScheduler
store and the current clock reading (`get_time`).  The executions list
abstracts the effect of the synchronous `job.run(runtime)` call, whose body
(`eNMS/models/automation.py`) is outside the given sources. -/
structure AutomationState where
  jobs : List JobRec
  scheduler : Scheduler
  executions : List (Nat × String)
  now : String

/-- Return value of `run_job`: the error dict, or the serialized job with
the fresh runtime added. -/
inductive RunJobOut where
  | error (msg : String)
  | ok (serialized : List (String × Value)) (runtime : String)

/-- Embedding of `AutomationController.run_job` (`eNMS/controller/automation.py`): fetch
the job by name; when its status is Running return the error dict with the
state untouched; otherwise take a fresh runtime from the clock and either
register a one-shot scheduler date job (asynchronous) or run the job in
place, returning the serialized job with the runtime. -/
def run_job (st : AutomationState) (name : String) (asynchronous : Bool) :
    Option (RunJobOut × AutomationState) :=
  (st.jobs.find? (fun j => j.name == name)).map fun job =>
    if job.status == "Running" then
      (.error (job.type ++ " is already running."), st)
    else
      if asynchronous then
        (.ok job.serialized st.now,
         { st with scheduler := add_job st.scheduler st.now (Trigger.date (some st.now)) })
      else
        (.ok job.serialized st.now,
         { st with executions := st.executions ++ [(job.id, st.now)] })

/-- Claim C1: for a job whose status is Running, run_job returns the
already-running error object and the state unchanged — no scheduler
registration, no execution; for a job whose status is not Running it
returns the job's serialized state together with the fresh runtime. -/
theorem run_job_already_running_guard (st : AutomationState) (name : String)
    (asynchronous : Bool) (job : JobRec)
    (hfind : st.jobs.find? (fun j => j.name == name) = some job) :
    (job.status = "Running" →
       run_job st name asynchronous =
         some (.error (job.type ++ " is already running."), st)) ∧
    (job.status ≠ "Running" →
       ∃ st2, run_job st name asynchronous = some (.ok job.serialized st.now, st2)) := by
  constructor
  · intro h
    simp [run_job, hfind, h]
  · intro h
    have hb : (job.status == "Running") = false := by simp [h]
    by_cases ha : asynchronous
    · exact ⟨{ st with scheduler := add_job st.scheduler st.now (Trigger.date (some st.now)) },
        by simp [run_job, hfind, hb, ha, h]⟩
    · exact ⟨{ st with executions := st.executions ++ [(job.id, st.now)] },
        by simp [run_job, hfind, hb, ha, h]⟩

/-- A job currently running. -/
def running_job : JobRec :=
  { id := 1, name := "J", type := "Service", status := "Running",
    serialized := [("name", .str "J")] }

/-- An idle job. -/
def idle_job : JobRec :=
  { id := 2, name := "K", type := "Workflow", status := "Idle",
    serialized := [("name", .str "K")] }

/-- A controller state holding one running and one idle job. -/
def demo_state : AutomationState :=
  { jobs := [running_job, idle_job], scheduler := [], executions := [],
    now := "2020-01-01 00:00:00" }

/-- Witness for `run_job_already_running_guard`: the running job gets the
error with the state unchanged; the idle job gets its serialized state and
the fresh runtime. -/
theorem run_job_already_running_guard_witness :
    run_job demo_state "J" true =
      some (.error ("Service is already running."), demo_state) ∧
    ∃ st2, run_job demo_state "K" true =
      some (.ok [("name", Value.str "K")] "2020-01-01 00:00:00", st2) := by
  constructor
  · exact (run_job_already_running_guard demo_state "J" true running_job rfl).1 rfl
  · exact (run_job_already_running_guard demo_state "K" true idle_job rfl).2 (by decide)

end ENMS
